import Mathlib

/-!
Verification of the monthly energy-consumption report pipeline
(`src/energy_consumption_report.py`, `src/reporting.py`).

The embedding below translates the Python source into Lean:

* Values of the power series are rationals (`ℚ`); a raw derivative point is a
  pair of a timestamp in minutes and an optional value (`none` models the
  nulls produced by `FILL(null)` in the InfluxQL query).
* The SQLite database is an association list from table names to lists of
  `(timestamp TEXT, response INTEGER)` rows.
* Effects (telemetry queries, HTTP POSTs) are counted explicitly in the
  result of the orchestrating task so that "zero network calls" is a
  statement about the model.
* `exit(0)` in `preprocessing` ends the tick; it is modelled by the
  `PrepResult.exit` constructor (and `PrepResult.noData` for the uncaught
  `KeyError` raised by `get_first_timestamp` on an empty source).
-/

/-- A ledger row: `(timestamp TEXT, response INTEGER)` as in the SQLite table
created by `create_sqlite_table`. -/
abbrev Row := String × Int

/-- The SQLite database file: an association list from table names to their
rows.  `reporting.py` only ever creates tables with the two-column schema
above, so all tables share the row type. -/
structure Db where
  tables : List (String × List Row)
deriving DecidableEq

/-- Look up the rows of a table, `none` when the table does not exist. -/
def Db.lookup (db : Db) (t : String) : Option (List Row) :=
  db.tables.lookup t

/-- Replace the rows of (every binding of) table `t`. -/
def Db.setTable (db : Db) (t : String) (rows : List Row) : Db :=
  ⟨db.tables.map (fun b => if b.1 = t then (b.1, rows) else b)⟩

/-- `create_sqlite_table` (reporting.py:128-142): executes
`CREATE TABLE {table_name} (timestamp TEXT, response INTEGER)`; the
`sqlite3.OperationalError` raised when the table already exists is caught and
only logged, so an existing table is left untouched. -/
def create_sqlite_table (table_name : String) (db : Db) : Db :=
  if (db.lookup table_name).isSome then db
  else ⟨(table_name, []) :: db.tables⟩

/-- The exception classes `create_sqlite_table` can see from sqlite3, split
by the message carried by an `OperationalError`. -/
inductive OperationalKind where
  | alreadyExists
  | databaseLocked
  | diskFull
deriving DecidableEq

/-- A storage failure raised inside `create_sqlite_table`'s `try` block:
either a `sqlite3.OperationalError` (of some kind) or an exception of any
other class (carrying its message). -/
inductive StorageFailure where
  | operationalError (k : OperationalKind)
  | otherError (msg : String)
deriving DecidableEq

/-- Error routing of `create_sqlite_table` (reporting.py:136-142): the
`except sqlite3.OperationalError` clause swallows every operational error
(only logging it at debug level), while exceptions of any other class escape
to the caller. `none` models a run that raises nothing. -/
def create_sqlite_table_exc (failure : Option StorageFailure) : Except String Unit :=
  match failure with
  | none => Except.ok ()
  | some (StorageFailure.operationalError _) => Except.ok ()
  | some (StorageFailure.otherError m) => Except.error m

/-- `update_sqlite_db` (reporting.py:174-196): inserts
`(timestamp, status_code)` with the hard-coded SQL
`INSERT INTO report_requests ...` — the configured `table_name` only appears
in log messages.  Any exception (e.g. `no such table: report_requests`) is
caught, the transaction rolled back and the error merely logged, leaving the
database unchanged. -/
def update_sqlite_db (table_name : String) (timestamp : String)
    (status_code : Int) (db : Db) : Db :=
  let _ := table_name
  match db.lookup "report_requests" with
  | some rows => db.setTable "report_requests" (rows ++ [(timestamp, status_code)])
  | none => db

/-- A Python `datetime.date` value. -/
structure PyDate where
  year : Nat
  month : Nat
  day : Nat
deriving DecidableEq

/-- Gregorian leap-year rule used by Python's `datetime`. -/
def isLeapYear (y : Nat) : Bool :=
  (y % 4 == 0 && y % 100 != 0) || (y % 400 == 0)

/-- Number of days of month `m` of year `y` (Python `calendar` semantics). -/
def daysInMonth (y m : Nat) : Nat :=
  if m == 2 then (if isLeapYear y then 29 else 28)
  else if m == 4 || m == 6 || m == 9 || m == 11 then 30
  else 31

/-- `d - timedelta(days=1)` on a Python date. -/
def subOneDay (d : PyDate) : PyDate :=
  if d.day > 1 then ⟨d.year, d.month, d.day - 1⟩
  else if d.month > 1 then ⟨d.year, d.month - 1, daysInMonth d.year (d.month - 1)⟩
  else ⟨d.year - 1, 12, 31⟩

/-- Python's `f'{n:02d}'` for the month component. -/
def pad2 (n : Nat) : String :=
  if n < 10 then "0" ++ toString n else toString n

/-- The reporting-period string computed by `check_report_status`
(reporting.py:154-169): `date(today.year, today.month, 1) - timedelta(days=1)`
formatted as `f'{year}-{month:02d}'`. -/
def target_timestamp (today : PyDate) : String :=
  let previous_month_date := subOneDay ⟨today.year, today.month, 1⟩
  toString previous_month_date.year ++ "-" ++ pad2 previous_month_date.month

/-- The membership test of reporting.py:170: `(timestamp, 200) in records`,
where `records` is `SELECT * FROM {table_name}`.  Returns `none` when the
`SELECT` fails (table absent): the `except` clause only logs, leaving the
local variable `records` unbound, so the subsequent membership test raises an
uncaught `NameError`. -/
def has_succeeded (table_name : String) (period : String) (db : Db) : Option Bool :=
  match db.lookup table_name with
  | some records => some (records.contains ((period, 200) : Row))
  | none => none

/-- `check_report_status` (reporting.py:146-170): returns
`((timestamp, 200) in records, timestamp)` for the previous-month timestamp;
`none` models the uncaught `NameError` raised when the `SELECT` failed. -/
def check_report_status (table_name : String) (today : PyDate) (db : Db) :
    Option (Bool × String) :=
  let timestamp := target_timestamp today
  match has_succeeded table_name timestamp db with
  | some b => some (b, timestamp)
  | none => none

/-- The InfluxQL server-side filter of reporting.py:72-79: the inner query
produces one point per hour (`GROUP BY time(1h) FILL(null)`) and the outer
`WHERE power < 15000` keeps exactly the non-null points strictly below
15000 (a comparison with null is never true in InfluxQL). -/
def serverKeep (p : Nat × Option ℚ) : Bool :=
  match p.2 with
  | some v => decide (v < 15000)
  | none => false

/-- The rows kept by the outer `WHERE power < 15000` of the InfluxQL query. -/
def serverFilter (raw : List (Nat × Option ℚ)) : List (Nat × Option ℚ) :=
  raw.filter serverKeep

/-- The effect of pandas' `y[(y >= 0) & (y < 15000)]` (reporting.py:89) on a
single point: a null (NaN) value compares false on both sides and is
dropped; an in-range value is kept and unwrapped. -/
def clientKeep (p : Nat × Option ℚ) : Option (Nat × ℚ) :=
  match p.2 with
  | some v => if 0 ≤ v ∧ v < 15000 then some (p.1, v) else none
  | none => none

/-- The pandas filter of reporting.py:89 over a series. -/
def clientFilter (pts : List (Nat × Option ℚ)) : List (Nat × ℚ) :=
  pts.filterMap clientKeep

/-- The valid samples: exactly those that survive both filters. -/
def clean (raw : List (Nat × Option ℚ)) : List (Nat × ℚ) :=
  clientFilter (serverFilter raw)

/-- Whether a raw point would survive the cleaning (non-null and in
`[0, 15000)`). -/
def isValidSample (p : Nat × Option ℚ) : Bool :=
  match p.2 with
  | some v => decide (0 ≤ v) && decide (v < 15000)
  | none => false

/-- The hourly bucket of a timestamp given in minutes. -/
def hourOf (t : Nat) : Nat := t / 60

/-- Values of `pts` falling in hour bucket `h`. -/
def bucketVals (pts : List (Nat × ℚ)) (h : Nat) : List ℚ :=
  (pts.filter (fun p => hourOf p.1 == h)).map Prod.snd

/-- The mean pandas' `resample('1h').mean()` assigns to bucket `h`: the
arithmetic mean of the points in the bucket, NaN (modelled `none`) when the
bucket is empty. -/
def bucketMean (pts : List (Nat × ℚ)) (h : Nat) : Option ℚ :=
  let vs := bucketVals pts h
  if vs.isEmpty then none
  else some (vs.sum / (vs.length : ℚ))

/-- Minimum of a list of naturals, `none` on the empty list. -/
def optMin (l : List Nat) : Option Nat :=
  match l with
  | [] => none
  | a :: rest =>
    match optMin rest with
    | none => some a
    | some b => some (if a ≤ b then a else b)

/-- Maximum of a list of naturals, `none` on the empty list. -/
def optMax (l : List Nat) : Option Nat :=
  match l with
  | [] => none
  | a :: rest =>
    match optMax rest with
    | none => some a
    | some b => some (if a ≤ b then b else a)

/-- The smallest hour bucket occupied by `pts`. -/
def minHour (pts : List (Nat × ℚ)) : Option Nat :=
  optMin (pts.map (fun p => hourOf p.1))

/-- The largest hour bucket occupied by `pts`. -/
def maxHour (pts : List (Nat × ℚ)) : Option Nat :=
  optMax (pts.map (fun p => hourOf p.1))

/-- pandas `resample('1h').mean()` (reporting.py:92): a regular hourly grid
from the first to the last occupied hour, each bucket carrying the mean of
its points — NaN (`none`) for buckets with no point. -/
def resample (pts : List (Nat × ℚ)) : List (Nat × Option ℚ) :=
  match minHour pts, maxHour pts with
  | some h0, some h1 =>
      (List.range (h1 - h0 + 1)).map (fun i => (h0 + i, bucketMean pts (h0 + i)))
  | _, _ => []

/-- Result of `preprocessing`: `noData` is the uncaught `KeyError` raised by
`get_first_timestamp` when the pulse series is empty (reporting.py:42);
`exit` is `exit(0)`, reached either through the caught `KeyError` when the
derivative query returns no series (reporting.py:95-97) or through the
`y.size < 2` guard (reporting.py:99-102); `series` is a successful return. -/
inductive PrepResult where
  | noData
  | exit
  | series (y : List (Nat × Option ℚ))
deriving DecidableEq

/-- `preprocessing` (reporting.py:50-104).  `source_empty` records whether
the pulse measurement holds zero samples (making `get_first_timestamp` raise
`KeyError` before the `try` block); `raw` is the per-hour derivative series
the InfluxQL query would group, before its `WHERE power < 15000` clause. -/
def preprocessing (source_empty : Bool) (raw : List (Nat × Option ℚ)) : PrepResult :=
  if source_empty then PrepResult.noData
  else
    let fetched := serverFilter raw
    if fetched.isEmpty then PrepResult.exit
    else
      let y := resample (clean raw)
      if y.length < 2 then PrepResult.exit
      else PrepResult.series y

/-- Terminal outcome of one `reporting_task` tick. -/
inductive Outcome where
  | alreadySent
  | acked
  | sendFailed (code : Int)
  | noData
  | insufficientData
  | checkError
deriving DecidableEq

/-- Observable result of one `reporting_task` tick: the database afterwards,
how many telemetry (InfluxDB) queries and report (HTTP POST) deliveries were
made, and the terminal outcome. -/
structure TaskResult where
  db : Db
  fetches : Nat
  sends : Nat
  outcome : Outcome
deriving DecidableEq

/-- `reporting_task` (energy_consumption_report.py:185-230): create the
table if necessary, check whether the previous month's report was received,
and only if not, query InfluxDB, preprocess, POST, and on a 200 response
record the success via `update_sqlite_db`.  `send_status` is the HTTP status
code the remote service would answer with. -/
def reporting_task (table_name : String) (today : PyDate) (source_empty : Bool)
    (raw : List (Nat × Option ℚ)) (send_status : Int) (db : Db) : TaskResult :=
  let db1 := create_sqlite_table table_name db
  match check_report_status table_name today db1 with
  | none => ⟨db1, 0, 0, Outcome.checkError⟩
  | some (received, previous_month_date) =>
    if received then ⟨db1, 0, 0, Outcome.alreadySent⟩
    else
      match preprocessing source_empty raw with
      | PrepResult.noData => ⟨db1, 1, 0, Outcome.noData⟩
      | PrepResult.exit => ⟨db1, 1, 0, Outcome.insufficientData⟩
      | PrepResult.series _ =>
        if send_status = 200 then
          ⟨update_sqlite_db table_name previous_month_date send_status db1,
           1, 1, Outcome.acked⟩
        else ⟨db1, 1, 1, Outcome.sendFailed send_status⟩

/-- Input of one scheduled tick: the wall-clock date, the telemetry contents
and the remote service's answer at that moment. -/
structure TickInput where
  today : PyDate
  source_empty : Bool
  raw : List (Nat × Option ℚ)
  send_status : Int
deriving DecidableEq

/-- Modelled from the spec: the `continuous_scheduler` module imported by
`energy_consumption_report.py` is not part of the sources under `src/`.  The
spec treats it as a black box exposing "register periodic task" / "run
forever": it invokes the registered task once per tick, ticks are serialized
and never overlap, and a failure of one tick does not stop the driver — the
next tick runs regardless.  `scheduler_run` folds the task over a list of
tick inputs, collecting one outcome per tick. -/
def scheduler_run (table_name : String) (ticks : List TickInput) (db : Db) :
    Db × List Outcome :=
  match ticks with
  | [] => (db, [])
  | tick :: rest =>
    let r := reporting_task table_name tick.today tick.source_empty
      tick.raw tick.send_status db
    let later := scheduler_run table_name rest r.db
    (later.1, r.outcome :: later.2)

/-- Number of ledger rows recorded for period `p` in table `t`. -/
def countRecords (db : Db) (t : String) (p : String) : Nat :=
  match db.lookup t with
  | some rows => (rows.filter (fun r => r.1 == p)).length
  | none => 0

/-- The calendar month immediately preceding month `m` of year `y`, stated
from the spec's words ("the month preceding the current wall-clock month"),
for comparison with the source's computation. -/
def spec_preceding_month (y m : Nat) : Nat × Nat :=
  if m = 1 then (y - 1, 12) else (y, m - 1)

/-! ## Helper lemmas -/

theorem lookup_cons (b : String × List Row) (rest : List (String × List Row)) (t : String) :
    Db.lookup ⟨b :: rest⟩ t = if b.1 = t then some b.2 else Db.lookup ⟨rest⟩ t := by
  rcases b with ⟨k, v⟩
  by_cases h : k = t
  · simp [Db.lookup, List.lookup, h]
  · have h' : t ≠ k := fun e => h e.symm
    simp [Db.lookup, List.lookup, h, beq_false_of_ne h']

theorem setTable_cons (b : String × List Row) (rest : List (String × List Row))
    (t : String) (rows' : List Row) :
    Db.setTable ⟨b :: rest⟩ t rows'
      = ⟨(if b.1 = t then (b.1, rows') else b) :: (Db.setTable ⟨rest⟩ t rows').tables⟩ := by
  by_cases hb : b.1 = t <;> simp [Db.setTable, hb]

theorem lookup_setTable_self (t : String) (rows' : List Row) :
    ∀ (tables : List (String × List Row)), (Db.lookup ⟨tables⟩ t).isSome →
      Db.lookup (Db.setTable ⟨tables⟩ t rows') t = some rows' := by
  intro tables
  induction tables with
  | nil => intro h; simp [Db.lookup, List.lookup] at h
  | cons b rest ih =>
    intro h
    rw [setTable_cons]
    by_cases hb : b.1 = t
    · rw [lookup_cons]
      simp [hb]
    · rw [lookup_cons] at h ⊢
      simp [hb] at h ⊢
      exact ih h

theorem optMin_ne_none (l : List Nat) (hl : l ≠ []) : ∃ m, optMin l = some m := by
  cases l with
  | nil => exact absurd rfl hl
  | cons a rest =>
    cases h : optMin rest with
    | none => exact ⟨a, by simp [optMin, h]⟩
    | some b => exact ⟨if a ≤ b then a else b, by simp [optMin, h]⟩

theorem optMax_ne_none (l : List Nat) (hl : l ≠ []) : ∃ m, optMax l = some m := by
  cases l with
  | nil => exact absurd rfl hl
  | cons a rest =>
    cases h : optMax rest with
    | none => exact ⟨a, by simp [optMax, h]⟩
    | some b => exact ⟨if a ≤ b then b else a, by simp [optMax, h]⟩

theorem optMin_le (l : List Nat) : ∀ m, optMin l = some m → ∀ a ∈ l, m ≤ a := by
  induction l with
  | nil => intro m h; simp [optMin] at h
  | cons x rest ih =>
    intro m h a ha
    have hstep : m ≤ x ∧ ∀ c ∈ rest, m ≤ c := by
      cases hrest : optMin rest with
      | none =>
        cases rest with
        | nil =>
          simp [optMin] at h
          exact ⟨by omega, by intro c hc; simp at hc⟩
        | cons c cs =>
          rcases optMin_ne_none (c :: cs) (by simp) with ⟨m', hm'⟩
          rw [hrest] at hm'; cases hm'
      | some b =>
        simp [optMin, hrest] at h
        have hrle := ih b hrest
        by_cases hxb : x ≤ b
        · simp [hxb] at h
          exact ⟨by omega, fun c hc => by have := hrle c hc; omega⟩
        · simp [hxb] at h
          exact ⟨by omega, fun c hc => by have := hrle c hc; omega⟩
    rcases List.mem_cons.mp ha with heq | hmem
    · rw [heq]; exact hstep.1
    · exact hstep.2 a hmem

theorem le_optMax (l : List Nat) : ∀ m, optMax l = some m → ∀ a ∈ l, a ≤ m := by
  induction l with
  | nil => intro m h; simp [optMax] at h
  | cons x rest ih =>
    intro m h a ha
    have hstep : x ≤ m ∧ ∀ c ∈ rest, c ≤ m := by
      cases hrest : optMax rest with
      | none =>
        cases rest with
        | nil =>
          simp [optMax] at h
          exact ⟨by omega, by intro c hc; simp at hc⟩
        | cons c cs =>
          rcases optMax_ne_none (c :: cs) (by simp) with ⟨m', hm'⟩
          rw [hrest] at hm'; cases hm'
      | some b =>
        simp [optMax, hrest] at h
        have hrle := ih b hrest
        by_cases hxb : x ≤ b
        · simp [hxb] at h
          exact ⟨by omega, fun c hc => by have := hrle c hc; omega⟩
        · simp [hxb] at h
          exact ⟨by omega, fun c hc => by have := hrle c hc; omega⟩
    rcases List.mem_cons.mp ha with heq | hmem
    · rw [heq]; exact hstep.1
    · exact hstep.2 a hmem

theorem optMin_mem (l : List Nat) : ∀ m, optMin l = some m → m ∈ l := by
  induction l with
  | nil => intro m h; simp [optMin] at h
  | cons x rest ih =>
    intro m h
    cases hrest : optMin rest with
    | none => simp [optMin, hrest] at h; simp [h]
    | some b =>
      simp [optMin, hrest] at h
      by_cases hxb : x ≤ b
      · simp [hxb] at h
        simp [h.symm]
      · simp [hxb] at h
        exact List.mem_cons_of_mem x (h ▸ ih b hrest)

theorem optMax_mem (l : List Nat) : ∀ m, optMax l = some m → m ∈ l := by
  induction l with
  | nil => intro m h; simp [optMax] at h
  | cons x rest ih =>
    intro m h
    cases hrest : optMax rest with
    | none => simp [optMax, hrest] at h; simp [h]
    | some b =>
      simp [optMax, hrest] at h
      by_cases hxb : x ≤ b
      · simp [hxb] at h
        exact List.mem_cons_of_mem x (h ▸ ih b hrest)
      · simp [hxb] at h
        simp [h.symm]

theorem clientKeep_eq_some {p : Nat × Option ℚ} {q : Nat × ℚ} (h : clientKeep p = some q) :
    p.2 = some q.2 ∧ p.1 = q.1 ∧ 0 ≤ q.2 ∧ q.2 < 15000 := by
  rcases p with ⟨t, ov⟩
  cases ov with
  | none => simp [clientKeep] at h
  | some v =>
    simp only [clientKeep] at h
    split at h
    · cases h
      simp_all
    · cases h

theorem clientKeep_of_valid {p : Nat × Option ℚ} (h : isValidSample p = true) :
    ∃ v, p.2 = some v ∧ clientKeep p = some (p.1, v) := by
  rcases p with ⟨t, ov⟩
  cases ov with
  | none => simp [isValidSample] at h
  | some v =>
    simp [isValidSample] at h
    exact ⟨v, rfl, by simp [clientKeep, h.1, h.2]⟩

theorem serverKeep_of_valid {p : Nat × Option ℚ} (h : isValidSample p = true) :
    serverKeep p = true := by
  rcases p with ⟨t, ov⟩
  cases ov with
  | none => simp [isValidSample] at h
  | some v =>
    simp [isValidSample] at h
    simp [serverKeep, h.2]

theorem clean_eq_clientFilter (raw : List (Nat × Option ℚ)) :
    clean raw = clientFilter raw := by
  induction raw with
  | nil => rfl
  | cons p rest ih =>
    rcases p with ⟨t, ov⟩
    cases ov with
    | none =>
      simp only [clean, serverFilter, clientFilter, List.filter_cons, List.filterMap_cons] at ih ⊢
      simp only [serverKeep, clientKeep]
      exact ih
    | some v =>
      by_cases hv : v < 15000
      · have hsk : serverKeep (t, some v) = true := by simp [serverKeep, hv]
        simp only [clean, serverFilter, clientFilter, List.filter_cons, hsk, if_true,
          List.filterMap_cons] at ih ⊢
        cases hcase : clientKeep (t, some v) with
        | none => simp only [hcase]; exact ih
        | some q => simp only [hcase]; rw [ih]
      · have hva : ¬(0 ≤ v ∧ v < 15000) := fun hc => hv hc.2
        have hsk : serverKeep (t, some v) = false := by
          simp only [serverKeep, decide_eq_false_iff_not]
          exact hv
        have hck : clientKeep (t, some v) = none := by simp [clientKeep, hva]
        simp only [clean, serverFilter, clientFilter, List.filter_cons, hsk,
          Bool.false_eq_true, if_false, List.filterMap_cons, hck] at ih ⊢
        exact ih

theorem clientFilter_filter_valid (raw : List (Nat × Option ℚ)) :
    clientFilter (raw.filter isValidSample) = clientFilter raw := by
  induction raw with
  | nil => rfl
  | cons p rest ih =>
    by_cases hp : isValidSample p = true
    · rcases clientKeep_of_valid hp with ⟨v, hpv, hck⟩
      simp only [List.filter_cons, hp, if_true, clientFilter, List.filterMap_cons, hck]
      simp only [clientFilter] at ih
      rw [ih]
    · have hck : clientKeep p = none := by
        rcases p with ⟨t, ov⟩
        cases ov with
        | none => simp [clientKeep]
        | some v =>
          simp [isValidSample] at hp
          have hva : ¬(0 ≤ v ∧ v < 15000) := fun hc => absurd hc.2 (not_lt.mpr (hp hc.1))
          simp [clientKeep, hva]
      simp only [List.filter_cons, hp, if_false, clientFilter, List.filterMap_cons, hck] at ih ⊢
      exact ih

theorem sum_lt_mul_length (c : ℚ) :
    ∀ (l : List ℚ), (∀ v ∈ l, v < c) → l ≠ [] → l.sum < c * l.length := by
  intro l
  induction l with
  | nil => intro _ h; exact absurd rfl h
  | cons x rest ih =>
    intro hall _
    cases rest with
    | nil =>
      simpa using hall x (by simp)
    | cons z zs =>
      have hx := hall x (by simp)
      have hrest := ih (fun v hv => hall v (List.mem_cons_of_mem x hv)) (by simp)
      simp only [List.sum_cons, List.length_cons] at hrest ⊢
      push_cast
      push_cast at hrest
      nlinarith

theorem mean_bounds (l : List ℚ) (hne : l ≠ [])
    (hall : ∀ v ∈ l, 0 ≤ v ∧ v < 15000) :
    0 ≤ l.sum / (l.length : ℚ) ∧ l.sum / (l.length : ℚ) < 15000 := by
  have hlen : (0 : ℚ) < (l.length : ℚ) := by
    have : 0 < l.length := List.length_pos.mpr hne
    exact_mod_cast this
  constructor
  · exact div_nonneg (List.sum_nonneg (fun v hv => (hall v hv).1)) (le_of_lt hlen)
  · rw [div_lt_iff₀ hlen]
    exact sum_lt_mul_length 15000 l (fun v hv => (hall v hv).2) hne

theorem mem_bucketVals {pts : List (Nat × ℚ)} {h : Nat} {v : ℚ} :
    v ∈ bucketVals pts h ↔ ∃ p ∈ pts, hourOf p.1 = h ∧ p.2 = v := by
  simp only [bucketVals, List.mem_map, List.mem_filter, beq_iff_eq]
  constructor
  · rintro ⟨p, ⟨hp, hh⟩, hv⟩
    exact ⟨p, hp, hh, hv⟩
  · rintro ⟨p, hp, hh, hv⟩
    exact ⟨p, ⟨hp, hh⟩, hv⟩

theorem bucketMean_eq_none {pts : List (Nat × ℚ)} {h : Nat}
    (hm : bucketMean pts h = none) : ∀ p ∈ pts, hourOf p.1 ≠ h := by
  intro p hp hcontra
  simp only [bucketMean] at hm
  split at hm
  · rename_i hempty
    have : p.2 ∈ bucketVals pts h := mem_bucketVals.mpr ⟨p, hp, hcontra, rfl⟩
    rw [List.isEmpty_iff] at hempty
    rw [hempty] at this
    simp at this
  · cases hm

theorem bucketMean_eq_some {pts : List (Nat × ℚ)} {h : Nat} {v : ℚ}
    (hm : bucketMean pts h = some v) :
    bucketVals pts h ≠ [] ∧
      v = (bucketVals pts h).sum / ((bucketVals pts h).length : ℚ) := by
  simp only [bucketMean] at hm
  split at hm
  · cases hm
  · rename_i hempty
    cases hm
    refine ⟨fun hnil => hempty (by simp [hnil]), rfl⟩

theorem bucketMean_isSome_of_mem {pts : List (Nat × ℚ)} {p : Nat × ℚ}
    (hp : p ∈ pts) : ∃ v, bucketMean pts (hourOf p.1) = some v := by
  have hmem : p.2 ∈ bucketVals pts (hourOf p.1) := mem_bucketVals.mpr ⟨p, hp, rfl, rfl⟩
  have hne : (bucketVals pts (hourOf p.1)).isEmpty = false := by
    rw [List.isEmpty_eq_false_iff_exists_mem]
    exact ⟨p.2, hmem⟩
  simp [bucketMean, hne]

theorem resample_eq (pts : List (Nat × ℚ)) (h0 h1 : Nat)
    (hmin : minHour pts = some h0) (hmax : maxHour pts = some h1) :
    resample pts
      = (List.range (h1 - h0 + 1)).map (fun i => (h0 + i, bucketMean pts (h0 + i))) := by
  simp [resample, hmin, hmax]

theorem minHour_ne_none {pts : List (Nat × ℚ)} (hne : pts ≠ []) :
    ∃ h0, minHour pts = some h0 := by
  apply optMin_ne_none
  simpa using hne

theorem maxHour_ne_none {pts : List (Nat × ℚ)} (hne : pts ≠ []) :
    ∃ h1, maxHour pts = some h1 := by
  apply optMax_ne_none
  simpa using hne

theorem minHour_le_hour {pts : List (Nat × ℚ)} {h0 : Nat} (hmin : minHour pts = some h0) :
    ∀ p ∈ pts, h0 ≤ hourOf p.1 := by
  intro p hp
  exact optMin_le _ h0 hmin (hourOf p.1) (List.mem_map.mpr ⟨p, hp, rfl⟩)

theorem hour_le_maxHour {pts : List (Nat × ℚ)} {h1 : Nat} (hmax : maxHour pts = some h1) :
    ∀ p ∈ pts, hourOf p.1 ≤ h1 := by
  intro p hp
  exact le_optMax _ h1 hmax (hourOf p.1) (List.mem_map.mpr ⟨p, hp, rfl⟩)

theorem minHour_mem {pts : List (Nat × ℚ)} {h0 : Nat} (hmin : minHour pts = some h0) :
    ∃ p ∈ pts, hourOf p.1 = h0 := by
  have hm := optMin_mem _ h0 hmin
  rcases List.mem_map.mp hm with ⟨p, hp, he⟩
  exact ⟨p, hp, he⟩

theorem maxHour_mem {pts : List (Nat × ℚ)} {h1 : Nat} (hmax : maxHour pts = some h1) :
    ∃ p ∈ pts, hourOf p.1 = h1 := by
  have hm := optMax_mem _ h1 hmax
  rcases List.mem_map.mp hm with ⟨p, hp, he⟩
  exact ⟨p, hp, he⟩

theorem resample_length {pts : List (Nat × ℚ)} {h0 h1 : Nat}
    (hmin : minHour pts = some h0) (hmax : maxHour pts = some h1) :
    (resample pts).length = h1 - h0 + 1 := by
  simp [resample_eq pts h0 h1 hmin hmax]

theorem mem_clean_bounds {raw : List (Nat × Option ℚ)} :
    ∀ p ∈ clean raw, 0 ≤ p.2 ∧ p.2 < 15000 := by
  intro p hp
  rw [clean_eq_clientFilter] at hp
  rcases List.mem_filterMap.mp hp with ⟨a, _, hk⟩
  have h := clientKeep_eq_some hk
  exact ⟨h.2.2.1, h.2.2.2⟩

theorem serverFilter_all_valid {l : List (Nat × Option ℚ)}
    (h : ∀ p ∈ l, isValidSample p = true) : serverFilter l = l :=
  List.filter_eq_self.mpr (fun p hp => serverKeep_of_valid (h p hp))

theorem clientFilter_length_of_valid :
    ∀ (l : List (Nat × Option ℚ)), (∀ p ∈ l, isValidSample p = true) →
      (clientFilter l).length = l.length := by
  intro l
  induction l with
  | nil => intro _; rfl
  | cons p rest ih =>
    intro h
    rcases clientKeep_of_valid (h p (by simp)) with ⟨v, _, hck⟩
    simp only [clientFilter, List.filterMap_cons, hck, List.length_cons]
    simp only [clientFilter] at ih
    rw [ih (fun q hq => h q (List.mem_cons_of_mem p hq))]

theorem clean_filter_valid (raw : List (Nat × Option ℚ)) :
    clean (raw.filter isValidSample) = clean raw := by
  rw [clean_eq_clientFilter, clean_eq_clientFilter]
  exact clientFilter_filter_valid raw

theorem resample_nil_length : (resample []).length = 0 := by
  simp [resample, minHour, maxHour, optMin, optMax]

theorem preprocessing_filter_valid (raw : List (Nat × Option ℚ)) :
    preprocessing false (raw.filter isValidSample) = preprocessing false raw := by
  by_cases hemp : (serverFilter raw).isEmpty
  · have hcr : clean raw = [] := by
      simp [clean, List.isEmpty_iff.mp hemp, clientFilter]
    have hcf : clean (raw.filter isValidSample) = [] := by
      rw [clean_filter_valid]; exact hcr
    have hsf : serverFilter (raw.filter isValidSample) = raw.filter isValidSample :=
      serverFilter_all_valid (fun p hp => (List.mem_filter.mp hp).2)
    have hrf : raw.filter isValidSample = [] := by
      have hlen := clientFilter_length_of_valid (raw.filter isValidSample)
        (fun p hp => (List.mem_filter.mp hp).2)
      rw [clean, hsf] at hcf
      rw [hcf] at hlen
      exact List.length_eq_zero.mp hlen.symm
    have h1 : (serverFilter (raw.filter isValidSample)).isEmpty = true := by
      rw [hrf]; rfl
    simp [preprocessing, hemp, h1]
  · by_cases hempF : (serverFilter (raw.filter isValidSample)).isEmpty
    · have hsf : serverFilter (raw.filter isValidSample) = raw.filter isValidSample :=
        serverFilter_all_valid (fun p hp => (List.mem_filter.mp hp).2)
      have hrf : raw.filter isValidSample = [] := by
        rw [← hsf]; exact List.isEmpty_iff.mp hempF
      have hcr : clean raw = [] := by
        rw [← clean_filter_valid raw, hrf]; rfl
      have hres : (resample (clean raw)).length < 2 := by
        rw [hcr, resample_nil_length]; omega
      simp [preprocessing, hemp, hempF, hres]
    · have hclean : clean (raw.filter isValidSample) = clean raw := clean_filter_valid raw
      simp [preprocessing, hemp, hempF, hclean]

theorem preprocessing_series_inv {raw : List (Nat × Option ℚ)}
    {y : List (Nat × Option ℚ)} (h : preprocessing false raw = PrepResult.series y) :
    y = resample (clean raw) ∧ 2 ≤ y.length := by
  simp only [preprocessing, Bool.false_eq_true, if_false] at h
  split at h
  · cases h
  · split at h
    · cases h
    · rename_i hlen
      cases h
      exact ⟨rfl, by omega⟩

theorem preprocessing_exit_of_few (raw : List (Nat × Option ℚ))
    (hfew : ∀ p ∈ clean raw, ∀ q ∈ clean raw, hourOf p.1 = hourOf q.1) :
    preprocessing false raw = PrepResult.exit := by
  by_cases hemp : (serverFilter raw).isEmpty
  · simp [preprocessing, hemp]
  · have hlen : (resample (clean raw)).length < 2 := by
      cases hcl : clean raw with
      | nil => rw [resample_nil_length]; omega
      | cons p rest =>
        have hne : clean raw ≠ [] := by rw [hcl]; simp
        rcases minHour_ne_none hne with ⟨h0, hmin⟩
        rcases maxHour_ne_none hne with ⟨h1, hmax⟩
        rcases minHour_mem hmin with ⟨p0, hp0, hh0⟩
        rcases maxHour_mem hmax with ⟨p1, hp1, hh1⟩
        have heq : h0 = h1 := by rw [← hh0, ← hh1]; exact hfew p0 hp0 p1 hp1
        rw [← hcl, resample_length hmin hmax]
        omega
    simp [preprocessing, hemp, hlen]

theorem create_sqlite_table_of_some {table_name : String} {db : Db} {rows : List Row}
    (h : Db.lookup db table_name = some rows) : create_sqlite_table table_name db = db := by
  simp [create_sqlite_table, h]

theorem check_report_status_of_some {table_name : String} {today : PyDate} {db : Db}
    {rows : List Row} (h : Db.lookup db table_name = some rows) :
    check_report_status table_name today db
      = some (rows.contains ((target_timestamp today, 200) : Row), target_timestamp today) := by
  simp [check_report_status, has_succeeded, h]

theorem lookup_update_sqlite_db {db : Db} {rows : List Row}
    (h : Db.lookup db "report_requests" = some rows) (t ts : String) (code : Int) :
    Db.lookup (update_sqlite_db t ts code db) "report_requests"
      = some (rows ++ [(ts, code)]) := by
  simp only [update_sqlite_db, h]
  exact lookup_setTable_self _ _ db.tables (by simp [show Db.lookup ⟨db.tables⟩ "report_requests" = some rows from h])

/-! ## Claims -/

/-- C10: if the `SELECT` reading the ledger table fails inside
`check_report_status` (for example, the table does not exist), the exception
handler only logs and the subsequent membership test references the unbound
variable `records`, so `check_report_status` raises an uncaught `NameError`
(modelled by `none`) instead of returning a `(bool, str)` result. -/
theorem C10_check_nameError (table_name : String) (today : PyDate) (db : Db)
    (h : Db.lookup db table_name = none) :
    check_report_status table_name today db = none := by
  simp [check_report_status, has_succeeded, h]

theorem C10_witness :
    Db.lookup ⟨[]⟩ "report_requests" = none ∧
      check_report_status "report_requests" ⟨2024, 7, 15⟩ ⟨[]⟩ = none :=
  ⟨rfl, C10_check_nameError "report_requests" ⟨2024, 7, 15⟩ ⟨[]⟩ rfl⟩

/-- C9: `update_sqlite_db` inserts into the literal table `report_requests`
regardless of the configured table name `T`; when `T` differs from
`report_requests` (so only `T` exists), the configured table is never
written, the insert error is swallowed leaving the database unchanged, and
no success is ever recorded for any period. -/
theorem C9_update_hardcoded_table (table_name ts : String) (code : Int) (db : Db)
    (rows : List Row)
    (hT : Db.lookup db table_name = some rows)
    (hTne : table_name ≠ "report_requests")
    (hno : Db.lookup db "report_requests" = none) :
    (∀ db' : Db, update_sqlite_db table_name ts code db'
        = update_sqlite_db "report_requests" ts code db') ∧
    update_sqlite_db table_name ts code db = db ∧
    Db.lookup (update_sqlite_db table_name ts code db) table_name = some rows ∧
    (∀ p, has_succeeded table_name p (update_sqlite_db table_name ts code db)
        = has_succeeded table_name p db) := by
  have hupd : update_sqlite_db table_name ts code db = db := by
    simp [update_sqlite_db, hno]
  refine ⟨fun db' => rfl, hupd, ?_, fun p => ?_⟩
  · rw [hupd]; exact hT
  · rw [hupd]

theorem C9_witness :
    update_sqlite_db "custom" "2024-06" 200 ⟨[("custom", [])]⟩ = ⟨[("custom", [])]⟩ ∧
      has_succeeded "custom" "2024-06"
          (update_sqlite_db "custom" "2024-06" 200 ⟨[("custom", [])]⟩)
        = has_succeeded "custom" "2024-06" ⟨[("custom", [])]⟩ := by
  have h := C9_update_hardcoded_table "custom" "2024-06" 200 ⟨[("custom", [])]⟩ []
    (by decide) (by decide) (by decide)
  exact ⟨h.2.1, h.2.2.2 "2024-06"⟩

/-- C8 counterexample: the claim says only the "already exists" storage error
is swallowed and any other storage error is propagated; but the code's
`except sqlite3.OperationalError` clause also swallows, e.g., a
"database is locked" operational error. -/
theorem C8_counterexample :
    create_sqlite_table_exc
        (some (StorageFailure.operationalError OperationalKind.databaseLocked))
      = Except.ok () ∧
    OperationalKind.databaseLocked ≠ OperationalKind.alreadyExists :=
  ⟨rfl, by decide⟩

/-- C8 (amended): `create_sqlite_table` is idempotent — repeating it is a
no-op and the "already exists" error is swallowed — and its `except` clause
swallows exactly the `sqlite3.OperationalError` class (any operational
error, not just "already exists"), while errors of any other class are
propagated to the caller. -/
theorem C8_amended_idempotent_swallow (failure : Option StorageFailure)
    (table_name : String) (db : Db) :
    create_sqlite_table table_name (create_sqlite_table table_name db)
        = create_sqlite_table table_name db ∧
    (create_sqlite_table_exc failure = Except.ok ()
        ↔ failure = none ∨ ∃ k, failure = some (StorageFailure.operationalError k)) := by
  constructor
  · set X := create_sqlite_table table_name db with hX
    have hsome : (Db.lookup X table_name).isSome := by
      rw [hX]
      cases hl : Db.lookup db table_name with
      | some rows => simp [create_sqlite_table, hl]
      | none =>
        have hc : create_sqlite_table table_name db = ⟨(table_name, []) :: db.tables⟩ := by
          simp [create_sqlite_table, hl]
        rw [hc, lookup_cons]
        simp
    simp [create_sqlite_table, hsome]
  · cases failure with
    | none => simp [create_sqlite_table_exc]
    | some f =>
      cases f with
      | operationalError k => simp [create_sqlite_table_exc]
      | otherError m => simp [create_sqlite_table_exc]

/-- C6: for every wall-clock date (including January, where the year
decrements), the target reporting period computed by `check_report_status`
is the calendar month immediately preceding the current month, formatted
`"YYYY-MM"` with a zero-padded two-digit month. -/
theorem C6_target_period (y m d : Nat) (hy : 1 ≤ y) (hm1 : 1 ≤ m) (hm2 : m ≤ 12) :
    target_timestamp ⟨y, m, d⟩
        = toString (spec_preceding_month y m).1 ++ "-"
            ++ pad2 (spec_preceding_month y m).2 ∧
      (pad2 (spec_preceding_month y m).2).length = 2 := by
  interval_cases m <;>
    simp [target_timestamp, subOneDay, spec_preceding_month, pad2, daysInMonth] <;>
    decide

theorem C6_witness :
    target_timestamp ⟨2024, 1, 15⟩
      = toString (spec_preceding_month 2024 1).1 ++ "-"
          ++ pad2 (spec_preceding_month 2024 1).2 :=
  (C6_target_period 2024 1 15 (by decide) (by decide) (by decide)).1

/-- C4: recording a success for period `p` (`update_sqlite_db`, the spec's
`record_success`) followed immediately by the ledger membership test (the
spec's `has_succeeded`) returns true for `p`, and false for any period
`q ≠ p` with no prior success record. -/
theorem C4_record_then_check (db : Db) (rows : List Row) (p q : String)
    (hlook : Db.lookup db "report_requests" = some rows)
    (hqp : q ≠ p)
    (hq : ((q, 200) : Row) ∉ rows) :
    has_succeeded "report_requests" p (update_sqlite_db "report_requests" p 200 db)
        = some true ∧
    has_succeeded "report_requests" q (update_sqlite_db "report_requests" p 200 db)
        = some false := by
  have hup := lookup_update_sqlite_db hlook "report_requests" p 200
  constructor
  · simp [has_succeeded, hup]
  · simp [has_succeeded, hup, hq, hqp]

theorem C4_witness :
    has_succeeded "report_requests" "2024-06"
        (update_sqlite_db "report_requests" "2024-06" 200 ⟨[("report_requests", [])]⟩)
      = some true ∧
    has_succeeded "report_requests" "2024-05"
        (update_sqlite_db "report_requests" "2024-06" 200 ⟨[("report_requests", [])]⟩)
      = some false :=
  C4_record_then_check ⟨[("report_requests", [])]⟩ [] "2024-06" "2024-05"
    (by decide) (by decide) (by decide)

theorem reporting_task_already {table_name : String} {today : PyDate} {db : Db}
    {rows : List Row} (s_e : Bool) (raw : List (Nat × Option ℚ)) (send : Int)
    (h : Db.lookup db table_name = some rows)
    (hmem : ((target_timestamp today, 200) : Row) ∈ rows) :
    reporting_task table_name today s_e raw send db = ⟨db, 0, 0, Outcome.alreadySent⟩ := by
  have hc : rows.contains ((target_timestamp today, 200) : Row) = true := by simp [hmem]
  simp only [reporting_task, create_sqlite_table_of_some h, check_report_status_of_some h,
    hc, if_true]

theorem reporting_task_eq_of_not_received {table_name : String} {today : PyDate}
    {db : Db} {rows : List Row} (s_e : Bool) (raw : List (Nat × Option ℚ)) (send : Int)
    (h : Db.lookup db table_name = some rows)
    (hnot : ((target_timestamp today, 200) : Row) ∉ rows) :
    reporting_task table_name today s_e raw send db
      = match preprocessing s_e raw with
        | PrepResult.noData => ⟨db, 1, 0, Outcome.noData⟩
        | PrepResult.exit => ⟨db, 1, 0, Outcome.insufficientData⟩
        | PrepResult.series _ =>
          if send = 200 then
            ⟨update_sqlite_db table_name (target_timestamp today) send db, 1, 1,
              Outcome.acked⟩
          else ⟨db, 1, 1, Outcome.sendFailed send⟩ := by
  have hc : rows.contains ((target_timestamp today, 200) : Row) = false := by simp [hnot]
  simp only [reporting_task, create_sqlite_table_of_some h, check_report_status_of_some h,
    hc, Bool.false_eq_true, if_false]

theorem scheduler_run_length (table_name : String) :
    ∀ (ticks : List TickInput) (db : Db),
      ((scheduler_run table_name ticks db).2).length = ticks.length := by
  intro ticks
  induction ticks with
  | nil => intro db; rfl
  | cons t rest ih =>
    intro db
    simp only [scheduler_run, List.length_cons]
    rw [ih]

theorem prep_good :
    preprocessing false [(0, some 100), (60, some 150), (120, some 230)]
      = PrepResult.series [(0, some 100), (1, some 150), (2, some 230)] := by
  have h1 : serverFilter [(0, some 100), (60, some 150), (120, some 230)]
      = [(0, some 100), (60, some 150), (120, some 230)] := by decide
  have h2 : clean [(0, some 100), (60, some 150), (120, some 230)]
      = [(0, (100 : ℚ)), (60, 150), (120, 230)] := by decide
  have h3 : resample [(0, (100 : ℚ)), (60, 150), (120, 230)]
      = [(0, some 100), (1, some 150), (2, some 230)] := by
    simp [resample, minHour, maxHour, optMin, optMax, bucketMean, bucketVals, hourOf,
      List.range_succ]
  simp [preprocessing, h1, h2, h3]

/-- C5: a delivery attempt answered with a non-200 status writes no
`DispatchRecord` — the database is unchanged and the next tick re-attempts
delivery — and `has_succeeded` is true exactly when the exact tuple
`(period, 200)` is a member of all fetched ledger rows (a record with any
other status code for the period does not count). -/
theorem C5_non200_no_record (table_name : String) (today : PyDate) (db : Db)
    (rows : List Row) (raw : List (Nat × Option ℚ)) (y : List (Nat × Option ℚ))
    (code : Int)
    (hlook : Db.lookup db table_name = some rows)
    (hnot : ((target_timestamp today, 200) : Row) ∉ rows)
    (hprep : preprocessing false raw = PrepResult.series y)
    (hcode : code ≠ 200) :
    reporting_task table_name today false raw code db
        = ⟨db, 1, 1, Outcome.sendFailed code⟩ ∧
    (∀ (db' : Db) (rows' : List Row) (p : String),
      Db.lookup db' table_name = some rows' →
      (has_succeeded table_name p db' = some true ↔ ((p, 200) : Row) ∈ rows')) ∧
    (reporting_task table_name today false raw code
        (reporting_task table_name today false raw code db).db).sends = 1 := by
  have htask := reporting_task_eq_of_not_received false raw code hlook hnot
  simp only [hprep] at htask
  rw [if_neg hcode] at htask
  refine ⟨htask, ?_, ?_⟩
  · intro db' rows' p hl
    simp [has_succeeded, hl]
  · rw [htask]
    show (reporting_task table_name today false raw code db).sends = 1
    rw [htask]

theorem C5_witness :
    reporting_task "report_requests" ⟨2024, 7, 15⟩ false
        [(0, some 100), (60, some 150), (120, some 230)] 500
        ⟨[("report_requests", [])]⟩
      = ⟨⟨[("report_requests", [])]⟩, 1, 1, Outcome.sendFailed 500⟩ ∧
    (reporting_task "report_requests" ⟨2024, 7, 15⟩ false
        [(0, some 100), (60, some 150), (120, some 230)] 500
        (reporting_task "report_requests" ⟨2024, 7, 15⟩ false
          [(0, some 100), (60, some 150), (120, some 230)] 500
          ⟨[("report_requests", [])]⟩).db).sends = 1 := by
  have h := C5_non200_no_record "report_requests" ⟨2024, 7, 15⟩
    ⟨[("report_requests", [])]⟩ []
    [(0, some 100), (60, some 150), (120, some 230)]
    [(0, some 100), (1, some 150), (2, some 230)] 500
    (by decide) (by simp) prep_good (by decide)
  exact ⟨h.1, h.2.2⟩

/-- C1: if a success record `(period, 200)` already exists for the target
period, the tick short-circuits with zero telemetry queries and zero POSTs
and leaves the database untouched; consequently, running the task twice for
the same period where the first run is acknowledged leaves exactly one
ledger row for that period and the second run short-circuits at
`ALREADY_SENT` with zero network calls. -/
theorem C1_idempotent_dispatch (today : PyDate) (db : Db) (rows : List Row)
    (raw : List (Nat × Option ℚ)) (y : List (Nat × Option ℚ))
    (hlook : Db.lookup db "report_requests" = some rows)
    (hfresh : ∀ r ∈ rows, r.1 ≠ target_timestamp today)
    (hprep : preprocessing false raw = PrepResult.series y) :
    (∀ (table_name : String) (db' : Db) (rows' : List Row) (s_e : Bool)
        (raw' : List (Nat × Option ℚ)) (send : Int),
        Db.lookup db' table_name = some rows' →
        ((target_timestamp today, 200) : Row) ∈ rows' →
        reporting_task table_name today s_e raw' send db'
          = ⟨db', 0, 0, Outcome.alreadySent⟩) ∧
    (reporting_task "report_requests" today false raw 200 db).outcome
        = Outcome.acked ∧
    countRecords (reporting_task "report_requests" today false raw 200 db).db
        "report_requests" (target_timestamp today) = 1 ∧
    reporting_task "report_requests" today false raw 200
        (reporting_task "report_requests" today false raw 200 db).db
      = ⟨(reporting_task "report_requests" today false raw 200 db).db, 0, 0,
          Outcome.alreadySent⟩ := by
  have hnot : ((target_timestamp today, 200) : Row) ∉ rows := by
    intro hmem
    exact hfresh _ hmem rfl
  have htask := reporting_task_eq_of_not_received false raw 200 hlook hnot
  simp only [hprep, if_true] at htask
  have hup := lookup_update_sqlite_db hlook "report_requests" (target_timestamp today) 200
  refine ⟨?_, ?_, ?_, ?_⟩
  · intro table_name db' rows' s_e raw' send hl hmem
    exact reporting_task_already s_e raw' send hl hmem
  · rw [htask]
  · rw [htask]
    show countRecords (update_sqlite_db "report_requests" (target_timestamp today) 200 db)
      "report_requests" (target_timestamp today) = 1
    simp only [countRecords, hup]
    rw [List.filter_append]
    have hnil : rows.filter (fun r => r.1 == target_timestamp today) = [] := by
      rw [List.filter_eq_nil_iff]
      intro r hr
      simpa using hfresh r hr
    rw [hnil]
    simp
  · rw [htask]
    exact reporting_task_already false raw 200 hup (by simp)

theorem C1_witness :
    (reporting_task "report_requests" ⟨2024, 7, 15⟩ false
        [(0, some 100), (60, some 150), (120, some 230)] 200
        ⟨[("report_requests", [])]⟩).outcome = Outcome.acked ∧
    countRecords (reporting_task "report_requests" ⟨2024, 7, 15⟩ false
        [(0, some 100), (60, some 150), (120, some 230)] 200
        ⟨[("report_requests", [])]⟩).db
      "report_requests" (target_timestamp ⟨2024, 7, 15⟩) = 1 ∧
    reporting_task "report_requests" ⟨2024, 7, 15⟩ false
        [(0, some 100), (60, some 150), (120, some 230)] 200
        (reporting_task "report_requests" ⟨2024, 7, 15⟩ false
          [(0, some 100), (60, some 150), (120, some 230)] 200
          ⟨[("report_requests", [])]⟩).db
      = ⟨(reporting_task "report_requests" ⟨2024, 7, 15⟩ false
          [(0, some 100), (60, some 150), (120, some 230)] 200
          ⟨[("report_requests", [])]⟩).db, 0, 0, Outcome.alreadySent⟩ :=
  (C1_idempotent_dispatch ⟨2024, 7, 15⟩ ⟨[("report_requests", [])]⟩ []
    [(0, some 100), (60, some 150), (120, some 230)]
    [(0, some 100), (1, some 150), (2, some 230)]
    (by decide) (by simp) prep_good).2

/-- C3: for an input series with fewer than 2 valid hourly points after
cleaning, the tick ends at `exit(0)` (the spec's `InsufficientDataError`)
with no POST and no state write, and the modelled periodic driver is not
terminated: the following ticks still run, starting from the unchanged
database. -/
theorem C3_insufficient_data (table_name : String) (today : PyDate) (db : Db)
    (rows : List Row) (raw : List (Nat × Option ℚ)) (send : Int)
    (rest : List TickInput)
    (hlook : Db.lookup db table_name = some rows)
    (hnot : ((target_timestamp today, 200) : Row) ∉ rows)
    (hfew : ∀ p ∈ clean raw, ∀ q ∈ clean raw, hourOf p.1 = hourOf q.1) :
    reporting_task table_name today false raw send db
        = ⟨db, 1, 0, Outcome.insufficientData⟩ ∧
    (scheduler_run table_name (⟨today, false, raw, send⟩ :: rest) db).2
        = Outcome.insufficientData :: (scheduler_run table_name rest db).2 ∧
    (∀ (ticks : List TickInput) (db' : Db),
      ((scheduler_run table_name ticks db').2).length = ticks.length) := by
  have htask := reporting_task_eq_of_not_received false raw send hlook hnot
  simp only [preprocessing_exit_of_few raw hfew] at htask
  refine ⟨htask, ?_, fun ticks db' => scheduler_run_length table_name ticks db'⟩
  simp only [scheduler_run, htask]

theorem C3_witness :
    reporting_task "report_requests" ⟨2024, 7, 15⟩ false
        [(0, some 100), (30, some 20000)] 200 ⟨[("report_requests", [])]⟩
      = ⟨⟨[("report_requests", [])]⟩, 1, 0, Outcome.insufficientData⟩ ∧
    (scheduler_run "report_requests"
        [⟨⟨2024, 7, 15⟩, false, [(0, some 100), (30, some 20000)], 200⟩]
        ⟨[("report_requests", [])]⟩).2 = [Outcome.insufficientData] := by
  have h := C3_insufficient_data "report_requests" ⟨2024, 7, 15⟩
    ⟨[("report_requests", [])]⟩ [] [(0, some 100), (30, some 20000)] 200 []
    (by decide) (by simp) (by decide)
  exact ⟨h.1, h.2.1⟩

/-- C7: when the telemetry source contains zero samples the tick fails (the
uncaught `KeyError` of `get_first_timestamp`, the spec's `NoDataError`) with
no POST, no state mutation, and without terminating the modelled periodic
driver: the following ticks still run, starting from the unchanged
database. -/
theorem C7_no_data (table_name : String) (today : PyDate) (db : Db)
    (rows : List Row) (raw : List (Nat × Option ℚ)) (send : Int)
    (rest : List TickInput)
    (hlook : Db.lookup db table_name = some rows)
    (hnot : ((target_timestamp today, 200) : Row) ∉ rows) :
    reporting_task table_name today true raw send db = ⟨db, 1, 0, Outcome.noData⟩ ∧
    (scheduler_run table_name (⟨today, true, raw, send⟩ :: rest) db).2
        = Outcome.noData :: (scheduler_run table_name rest db).2 ∧
    (∀ (ticks : List TickInput) (db' : Db),
      ((scheduler_run table_name ticks db').2).length = ticks.length) := by
  have htask := reporting_task_eq_of_not_received true raw send hlook hnot
  have hprep : preprocessing true raw = PrepResult.noData := rfl
  simp only [hprep] at htask
  refine ⟨htask, ?_, fun ticks db' => scheduler_run_length table_name ticks db'⟩
  simp only [scheduler_run, htask]

theorem C7_witness :
    reporting_task "report_requests" ⟨2024, 7, 15⟩ true [] 200
        ⟨[("report_requests", [])]⟩
      = ⟨⟨[("report_requests", [])]⟩, 1, 0, Outcome.noData⟩ ∧
    (scheduler_run "report_requests" [⟨⟨2024, 7, 15⟩, true, [], 200⟩]
        ⟨[("report_requests", [])]⟩).2 = [Outcome.noData] := by
  have h := C7_no_data "report_requests" ⟨2024, 7, 15⟩ ⟨[("report_requests", [])]⟩
    [] [] 200 [] (by decide) (by simp)
  exact ⟨h.1, h.2.1⟩

theorem prep_c2 :
    preprocessing false [(0, some 100), (60, some 20000), (125, some 200)]
      = PrepResult.series [(0, some 100), (1, none), (2, some 200)] := by
  have h1 : serverFilter [(0, some 100), (60, some 20000), (125, some 200)]
      = [(0, some 100), (125, some 200)] := by decide
  have h2 : clean [(0, some 100), (60, some 20000), (125, some 200)]
      = [(0, (100 : ℚ)), (125, 200)] := by decide
  have h3 : resample [(0, (100 : ℚ)), (125, 200)]
      = [(0, some 100), (1, none), (2, some 200)] := by
    simp [resample, minHour, maxHour, optMin, optMax, bucketMean, bucketVals, hourOf,
      List.range_succ]
  simp [preprocessing, h1, h2, h3]

/-- C2 counterexample: on the raw series with valid points at minutes 0 and
125 and a sensor fault (20000) at minute 60, hour 1 has zero valid raw
points, yet the transformer's output contains an entry `(1, none)` for it —
pandas' `resample('1h').mean()` NaN-fills empty buckets — so "hours with
zero valid raw points are absent from the output" and "every emitted
PowerSample value lies in [0, 15000)" are both false as stated. -/
theorem C2_counterexample :
    preprocessing false [(0, some 100), (60, some 20000), (125, some 200)]
      = PrepResult.series [(0, some 100), (1, none), (2, some 200)] ∧
    ((1 : Nat), (none : Option ℚ))
        ∈ [((0 : Nat), some (100 : ℚ)), (1, none), (2, some 200)] ∧
    (∀ p ∈ [((0 : Nat), some (100 : ℚ)), (60, some 20000), (125, some 200)],
      ¬(hourOf p.1 = 1 ∧ isValidSample p = true)) :=
  ⟨prep_c2, by simp, by decide⟩

/-- C2 (amended): whenever the transformer succeeds with output `y`, `y` is
chronologically ascending and consists of exactly one entry per hour of the
hourly grid spanning the valid points (an hour appears in `y` iff it lies
between the first and the last occupied hour, and `y` has exactly grid-many
entries); every entry carrying a value carries precisely the arithmetic mean
of its hour's valid raw values, which lies in `[0, 15000)`, and such an hour
holds at least one valid raw point; an entry carries a null value exactly
when its (in-span) hour has zero valid raw points — such hours are present
with null, not absent; every hour holding a valid raw point appears in `y`
with a non-null value; and samples whose source value is null, negative or
`≥ 15000` never influence the result — removing them from the input leaves
the output unchanged. -/
theorem C2_transformer_output (raw : List (Nat × Option ℚ))
    (y : List (Nat × Option ℚ))
    (hser : preprocessing false raw = PrepResult.series y) :
    List.Pairwise (fun a b => a.1 < b.1) y ∧
    (∃ h0 h1, minHour (clean raw) = some h0 ∧ maxHour (clean raw) = some h1 ∧
      y.length = h1 - h0 + 1 ∧
      (∀ h : Nat, (∃ ov, ((h, ov) : Nat × Option ℚ) ∈ y) ↔ h0 ≤ h ∧ h ≤ h1)) ∧
    (∀ h v, ((h, some v) : Nat × Option ℚ) ∈ y →
      v = (bucketVals (clean raw) h).sum / ((bucketVals (clean raw) h).length : ℚ) ∧
      (0 ≤ v ∧ v < 15000) ∧ ∃ p ∈ clean raw, hourOf p.1 = h) ∧
    (∀ h, ((h, none) : Nat × Option ℚ) ∈ y ↔
      ((∃ ov, ((h, ov) : Nat × Option ℚ) ∈ y) ∧ ∀ p ∈ clean raw, hourOf p.1 ≠ h)) ∧
    (∀ p ∈ clean raw, ∃ v, ((hourOf p.1, some v) : Nat × Option ℚ) ∈ y) ∧
    preprocessing false (raw.filter isValidSample) = PrepResult.series y := by
  obtain ⟨hy, hlen⟩ := preprocessing_series_inv hser
  have hne : clean raw ≠ [] := by
    intro hnil
    have hz : y.length = 0 := by rw [hy, hnil]; exact resample_nil_length
    omega
  rcases minHour_ne_none hne with ⟨h0, hmin⟩
  rcases maxHour_ne_none hne with ⟨h1, hmax⟩
  have h01 : h0 ≤ h1 := by
    rcases List.exists_mem_of_ne_nil _ hne with ⟨p, hp⟩
    exact le_trans (minHour_le_hour hmin p hp) (hour_le_maxHour hmax p hp)
  have hyeq : y = (List.range (h1 - h0 + 1)).map
      (fun i => (h0 + i, bucketMean (clean raw) (h0 + i))) := by
    rw [hy]; exact resample_eq _ h0 h1 hmin hmax
  have hmemy : ∀ (h : Nat) (ov : Option ℚ), ((h, ov) : Nat × Option ℚ) ∈ y
      ↔ (h0 ≤ h ∧ h ≤ h1 ∧ ov = bucketMean (clean raw) h) := by
    intro h ov
    rw [hyeq]
    constructor
    · intro hmem
      rcases List.mem_map.mp hmem with ⟨i, hi, heq⟩
      rw [List.mem_range] at hi
      have hh : h0 + i = h := congrArg Prod.fst heq
      have hov : bucketMean (clean raw) (h0 + i) = ov := congrArg Prod.snd heq
      refine ⟨by omega, by omega, ?_⟩
      rw [← hh]
      exact hov.symm
    · rintro ⟨hl, hr, rfl⟩
      refine List.mem_map.mpr ⟨h - h0, ?_, ?_⟩
      · rw [List.mem_range]; omega
      · have hx : h0 + (h - h0) = h := by omega
        rw [hx]
  have hpw : List.Pairwise (fun a b => a.1 < b.1) y := by
    rw [hyeq, List.pairwise_map]
    have hr := List.pairwise_lt_range (h1 - h0 + 1)
    exact hr.imp (fun hij => by simpa using Nat.add_lt_add_left hij h0)
  have hgrid : y.length = h1 - h0 + 1 ∧
      (∀ h : Nat, (∃ ov, ((h, ov) : Nat × Option ℚ) ∈ y) ↔ h0 ≤ h ∧ h ≤ h1) := by
    refine ⟨by rw [hy]; exact resample_length hmin hmax, fun h => ?_⟩
    constructor
    · rintro ⟨ov, hm⟩
      have hc := (hmemy h ov).mp hm
      exact ⟨hc.1, hc.2.1⟩
    · rintro ⟨hl, hr⟩
      exact ⟨bucketMean (clean raw) h, (hmemy h _).mpr ⟨hl, hr, rfl⟩⟩
  have hval : ∀ h v, ((h, some v) : Nat × Option ℚ) ∈ y →
      v = (bucketVals (clean raw) h).sum / ((bucketVals (clean raw) h).length : ℚ) ∧
      (0 ≤ v ∧ v < 15000) ∧ ∃ p ∈ clean raw, hourOf p.1 = h := by
    intro h v hmem
    have hbm : bucketMean (clean raw) h = some v := ((hmemy h _).mp hmem).2.2.symm
    obtain ⟨hbne, hveq⟩ := bucketMean_eq_some hbm
    have hbounds : ∀ w ∈ bucketVals (clean raw) h, 0 ≤ w ∧ w < 15000 := by
      intro w hw
      rcases mem_bucketVals.mp hw with ⟨p, hp, _, hpv⟩
      have hb := mem_clean_bounds p hp
      rw [hpv] at hb
      exact hb
    have hm := mean_bounds _ hbne hbounds
    rw [← hveq] at hm
    refine ⟨hveq, hm, ?_⟩
    rcases List.exists_mem_of_ne_nil _ hbne with ⟨w, hw⟩
    rcases mem_bucketVals.mp hw with ⟨p, hp, hph, _⟩
    exact ⟨p, hp, hph⟩
  have hnull : ∀ h, ((h, none) : Nat × Option ℚ) ∈ y ↔
      ((∃ ov, ((h, ov) : Nat × Option ℚ) ∈ y) ∧ ∀ p ∈ clean raw, hourOf p.1 ≠ h) := by
    intro h
    constructor
    · intro hmem
      have hbm : bucketMean (clean raw) h = none := ((hmemy h _).mp hmem).2.2.symm
      exact ⟨⟨none, hmem⟩, bucketMean_eq_none hbm⟩
    · rintro ⟨⟨ov, hmem⟩, hno⟩
      have hc := (hmemy h ov).mp hmem
      have hbv : bucketVals (clean raw) h = [] := by
        by_contra hbv
        rcases List.exists_mem_of_ne_nil _ hbv with ⟨w, hw⟩
        rcases mem_bucketVals.mp hw with ⟨p, hp, hph, _⟩
        exact hno p hp hph
      have hbm : bucketMean (clean raw) h = none := by
        simp [bucketMean, hbv]
      exact (hmemy h none).mpr ⟨hc.1, hc.2.1, hbm.symm⟩
  have hcover : ∀ p ∈ clean raw, ∃ v, ((hourOf p.1, some v) : Nat × Option ℚ) ∈ y := by
    intro p hp
    rcases bucketMean_isSome_of_mem hp with ⟨v, hv⟩
    refine ⟨v, (hmemy _ _).mpr
      ⟨minHour_le_hour hmin p hp, hour_le_maxHour hmax p hp, hv.symm⟩⟩
  exact ⟨hpw, ⟨h0, h1, hmin, hmax, hgrid.1, hgrid.2⟩, hval, hnull, hcover,
    by rw [preprocessing_filter_valid raw, hser]⟩

theorem C2_witness :
    List.Pairwise (fun a b => a.1 < b.1)
        [((0 : Nat), some (100 : ℚ)), (1, none), (2, some 200)] ∧
    ((1 : Nat), (none : Option ℚ))
        ∈ [((0 : Nat), some (100 : ℚ)), (1, none), (2, some 200)] ∧
    preprocessing false
        (List.filter isValidSample [(0, some 100), (60, some 20000), (125, some 200)])
      = PrepResult.series [(0, some 100), (1, none), (2, some 200)] := by
  have h := C2_transformer_output [(0, some 100), (60, some 20000), (125, some 200)]
    [(0, some 100), (1, none), (2, some 200)] prep_c2
  refine ⟨h.1, ?_, h.2.2.2.2.2⟩
  exact (h.2.2.2.1 1).mpr ⟨⟨none, by simp⟩, by decide⟩
